import Mathlib

/-!
Verification of the peer-to-peer synchronization layer (`src/network.ts`,
`src/types.ts`) of keyiiiii/blockchain.

The Chain Oracle (`blockchain.ts`), the configuration (`config.ts`,
`constant.ts`), the chain store (`history.ts`) and the State Sync Hooks
(`state/*`) are not part of the sources; following the specification they are
treated as external collaborators: the oracle is a parameter, and the missing
state-mutating collaborators are modelled from the spec (each such definition
says so in its doc comment).
-/

/-- `Transfer` from `src/types.ts`. -/
structure Transfer where
  «from» : String
  «to» : String
  value : Int
deriving DecidableEq, Repr

/-- `Block` from `src/types.ts`: `data` is a domain payload (`Transfer`) or empty. -/
structure Block where
  index : Int
  previousHash : String
  timestamp : Int
  data : Option Transfer
  hash : String
deriving DecidableEq, Repr

/-- `Blockchain = Block[]` from `src/types.ts`. -/
abbrev Blockchain : Type := List Block

def defaultBlock : Block :=
  { index := 0, previousHash := "", timestamp := 0, data := none, hash := "" }

/-- Modelled from the spec: `getLatestBlock(chain)` of the absent `blockchain.ts`
returns the chain's final block (spec section 4.3 step 3 and section 6). -/
def getLatestBlock (c : Blockchain) : Block :=
  c.getLastD defaultBlock

/-- Modelled from the spec: the Chain Oracle interface of the absent
`blockchain.ts` (spec section 6); validation behaviour is kept abstract. -/
structure ChainOracle where
  isValidBlockStructure : Block → Bool
  isValidNewBlock : Block → Block → Bool
  isValidChain : Blockchain → Bool
  getAccumulatedDifficulty : Blockchain → Int

/-- Modelled from the spec: `MESSAGE_TYPE` of the absent `constant.ts`;
spec section 6: 0 = QUERY_LATEST. -/
def QUERY_LATEST : Nat := 0

/-- Modelled from the spec: 1 = QUERY_ALL. -/
def QUERY_ALL : Nat := 1

/-- Modelled from the spec: 2 = RESPONSE_BLOCKCHAIN. -/
def RESPONSE_BLOCKCHAIN : Nat := 2

/-- The result of `JSON.parse` applied to a message's `data` string: either a
decode failure (`bad`, the parse throws) or a decoded block array. -/
inductive JsonData where
  | bad : JsonData
  | ok : List Block → JsonData
deriving DecidableEq, Repr

/-- `PeerMessage` from `src/network.ts` usage: `type`, a `data` payload, and the
three serialized auxiliary-store snapshots. -/
structure PeerMessage where
  type : Nat
  data : JsonData
  accounts : String
  assets : String
  escrow : String
deriving DecidableEq, Repr

/-- The node's process-wide mutable state: the local chain plus the three
auxiliary stores; each store is modelled by the snapshot it currently holds. -/
structure NodeState where
  chain : Blockchain
  accounts : String
  assets : String
  escrows : String
deriving DecidableEq, Repr

/-- An observable output of one dispatch turn: `write` to the sending
connection, or `broadcast` to every registered connection. -/
inductive Effect where
  | reply : PeerMessage → Effect
  | broadcast : PeerMessage → Effect
deriving DecidableEq, Repr

/-- `responseLatestMsg` from `src/network.ts`: a RESPONSE_BLOCKCHAIN carrying
only the latest block of `c`, plus the current auxiliary-store snapshots. -/
def responseLatestMsg (st : NodeState) (c : Blockchain) : PeerMessage :=
  { type := RESPONSE_BLOCKCHAIN, data := JsonData.ok [getLatestBlock c],
    accounts := st.accounts, assets := st.assets, escrow := st.escrows }

/-- `responseChainMsg` from `src/network.ts`: a RESPONSE_BLOCKCHAIN carrying the
whole chain plus the current auxiliary-store snapshots. -/
def responseChainMsg (st : NodeState) (c : Blockchain) : PeerMessage :=
  { type := RESPONSE_BLOCKCHAIN, data := JsonData.ok c,
    accounts := st.accounts, assets := st.assets, escrow := st.escrows }

/-- `queryAllMsg` from `src/network.ts`; its `data` is the empty string, which
is not valid JSON, hence `JsonData.bad` if it were ever parsed. -/
def queryAllMsg : PeerMessage :=
  { type := QUERY_ALL, data := JsonData.bad, accounts := "", assets := "", escrow := "" }

/-- `queryChainLengthMsg` from `src/network.ts`. -/
def queryChainLengthMsg : PeerMessage :=
  { type := QUERY_LATEST, data := JsonData.bad, accounts := "", assets := "", escrow := "" }

/-- `replaceChain` from `src/network.ts`. The adoption of the received chain as
local state (`getBlockchain(newBlocks)`, whose `history.ts` is absent) is
modelled from the spec: "adopt the new chain as local state". Returns the new
state and the emitted effects. -/
def replaceChain (o : ChainOracle) (newBlocks : Blockchain) (st : NodeState) :
    NodeState × List Effect :=
  if o.isValidChain newBlocks = true ∧
      o.getAccumulatedDifficulty newBlocks > o.getAccumulatedDifficulty st.chain then
    let st1 : NodeState := { st with chain := newBlocks }
    (st1, [Effect.broadcast (responseLatestMsg st1 newBlocks)])
  else
    (st, [])

/-- Modelled from the spec: `handleReplaceAccounts` forwards the decoded
snapshot to the State Sync Hook `replaceAccounts` of the absent
`state/account.ts`, a bulk replace of the accounts store. -/
def handleReplaceAccounts (msg : String) (st : NodeState) : NodeState :=
  { st with accounts := msg }

/-- Modelled from the spec: bulk replace of the assets store
(`replaceAssets` of the absent `state/assets.ts`). -/
def handleReplaceAssets (msg : String) (st : NodeState) : NodeState :=
  { st with assets := msg }

/-- Modelled from the spec: bulk replace of the escrow store
(`replaceEscrows` of the absent `state/escrow.ts`). -/
def handleReplaceEscrow (msg : String) (st : NodeState) : NodeState :=
  { st with escrows := msg }

/-- Stable insertion of a block into an index-sorted list: `b` goes before the
first block of not-smaller index. -/
def insertByIndex (b : Block) : List Block → List Block
  | [] => [b]
  | c :: cs => if b.index ≤ c.index then b :: c :: cs else c :: insertByIndex b cs

/-- The sort in `handleBlockchainResponse`:
`JSON.parse(message.data).sort((b1, b2) => b1.index - b2.index)`, a stable
ascending sort by `index` (insertion sort models the engine's stable sort). -/
def sortByIndex : List Block → List Block
  | [] => []
  | b :: bs => insertByIndex b (sortByIndex bs)

/-- `handleBlockchainResponse` from `src/network.ts`. `Except.error ()` models
an exception escaping the handler (here: `JSON.parse(message.data)` throwing).
On success it returns the new node state and the emitted effects. -/
def handleBlockchainResponse (o : ChainOracle) (m : PeerMessage) (st : NodeState) :
    Except Unit (NodeState × List Effect) :=
  match m.data with
  | JsonData.bad => Except.error ()
  | JsonData.ok bs =>
    let receivedBlocks := sortByIndex bs
    if receivedBlocks.length = 0 then
      Except.ok (st, [])
    else
      let latestBlockReceived := receivedBlocks.getLastD defaultBlock
      if o.isValidBlockStructure latestBlockReceived = true then
        let latestBlockHeld := getLatestBlock st.chain
        if latestBlockReceived.index > latestBlockHeld.index then
          if latestBlockHeld.hash = latestBlockReceived.previousHash then
            if o.isValidNewBlock latestBlockReceived (getLatestBlock st.chain) = true then
              let st1 : NodeState := { st with chain := st.chain ++ [latestBlockReceived] }
              let st2 := handleReplaceEscrow m.escrow
                (handleReplaceAssets m.assets (handleReplaceAccounts m.accounts st1))
              Except.ok (st2, [Effect.broadcast (responseLatestMsg st1 st1.chain)])
            else
              Except.ok (st, [])
          else if receivedBlocks.length = 1 then
            let st1 := handleReplaceEscrow m.escrow
              (handleReplaceAssets m.assets (handleReplaceAccounts m.accounts st))
            Except.ok (st1, [Effect.broadcast queryAllMsg])
          else
            Except.ok (replaceChain o receivedBlocks st)
        else
          Except.ok (st, [])
      else
        Except.ok (st, [])

/-- The raw frame handed to the `message` event handler: either a frame on
which `JSON.parse(data)` throws, or a decoded `PeerMessage`. -/
inductive Wire where
  | bad : Wire
  | ok : PeerMessage → Wire

/-- The dispatch of `initMessageHandler` from `src/network.ts` for one incoming
frame; `Except.error ()` models an exception escaping the dispatch turn. -/
def initMessageHandler (o : ChainOracle) (st : NodeState) (w : Wire) :
    Except Unit (NodeState × List Effect) :=
  match w with
  | Wire.bad => Except.error ()
  | Wire.ok m =>
    if m.type = QUERY_LATEST then
      Except.ok (st, [Effect.reply (responseLatestMsg st st.chain)])
    else if m.type = QUERY_ALL then
      Except.ok (st, [Effect.reply (responseChainMsg st st.chain)])
    else if m.type = RESPONSE_BLOCKCHAIN then
      handleBlockchainResponse o m st
    else
      Except.ok (st, [])

/-- JavaScript `Array.prototype.indexOf`: the first index of `x` in `l`,
or `-1` when absent. Connections are identified by natural numbers. -/
def indexOfJs (l : List Nat) (x : Nat) : Int :=
  match l.findIdx? (fun y => decide (y = x)) with
  | some i => (i : Int)
  | none => -1

/-- JavaScript `Array.prototype.splice(start, 1)`: a negative `start` counts
from the end (clamped at 0), a too-large `start` deletes nothing. -/
def spliceRemoveOne (l : List Nat) (start : Int) : List Nat :=
  let n : Int := l.length
  let s : Nat := (if start < 0 then max (n + start) 0 else min start n).toNat
  l.take s ++ l.drop (s + 1)

/-- `sockets.splice(sockets.indexOf(ws), 1)` from `closeConnection` in
`src/network.ts`: the Peer Registry's deregistration step. -/
def removeSocket (l : List Nat) (ws : Nat) : List Nat :=
  spliceRemoveOne l (indexOfJs l ws)

/-- The connection-lifecycle state: the registry (`sockets`), the pending
single-shot timers of the runtime, the `reconnectTimeout` variable holding the
last armed handle, a fresh-handle counter, and the log of
`connectToPeers(peers, ...)` invocations (each entry the peer list dialled). -/
structure NetState where
  sockets : List Nat
  pendingTimers : List Nat
  reconnectTimeout : Option Nat
  nextTimerId : Nat
  attempts : List (List String)
deriving DecidableEq, Repr

/-- `clearTimeout(reconnectTimeout)`: removes the held handle from the
runtime's pending set (a no-op on an already-fired or absent handle). -/
def clearTimeoutOp (s : NetState) : NetState :=
  match s.reconnectTimeout with
  | some id => { s with pendingTimers := s.pendingTimers.filter (fun t => decide (t ≠ id)) }
  | none => s

/-- `reconnectTimeout = setTimeout(reconnect, RECONNECT_TIME)`: arms a fresh
single-shot timer and stores its handle. -/
def setTimeoutOp (s : NetState) : NetState :=
  { s with pendingTimers := s.pendingTimers ++ [s.nextTimerId],
           reconnectTimeout := some s.nextTimerId,
           nextTimerId := s.nextTimerId + 1 }

/-- The body of `reconnect` in `initErrorHandler` (`src/network.ts`):
`connectToPeers(initialPeers, ...)` (logged in `attempts`), then
`clearTimeout(reconnectTimeout)`, then rearm via `setTimeout`. -/
def reconnectBody (initialPeers : List String) (s : NetState) : NetState :=
  setTimeoutOp (clearTimeoutOp { s with attempts := s.attempts ++ [initialPeers] })

/-- `closeConnection` in `initErrorHandler` (`src/network.ts`), run on `close`
or `error` of a registered connection: deregister `ws`, then run `reconnect()`. -/
def closeConnection (initialPeers : List String) (ws : Nat) (s : NetState) : NetState :=
  reconnectBody initialPeers { s with sockets := removeSocket s.sockets ws }

/-- The armed reconnect timer fires: the runtime retires the pending handle and
runs the `reconnect` callback. -/
def fireTimer (initialPeers : List String) (s : NetState) : NetState :=
  match s.reconnectTimeout with
  | some id =>
    reconnectBody initialPeers
      { s with pendingTimers := s.pendingTimers.filter (fun t => decide (t ≠ id)) }
  | none => s

/-- Timer sanity: the runtime's pending set is exactly the handle held in
`reconnectTimeout`, and handles are issued in increasing order. -/
def TimerWF (s : NetState) : Prop :=
  s.pendingTimers = s.reconnectTimeout.toList ∧ ∀ id ∈ s.pendingTimers, id < s.nextTimerId

/-! Concrete fixtures used by the witnesses. -/

/-- An oracle that accepts everything and scores a chain by its length. -/
def oracleTrue : ChainOracle :=
  { isValidBlockStructure := fun _ => true
    isValidNewBlock := fun _ _ => true
    isValidChain := fun _ => true
    getAccumulatedDifficulty := fun c => (c.length : Int) }

def b0 : Block := { index := 0, previousHash := "", timestamp := 10, data := none, hash := "h0" }

def b1 : Block := { index := 1, previousHash := "h0", timestamp := 11, data := none, hash := "h1" }

def b2 : Block := { index := 2, previousHash := "h1", timestamp := 12, data := none, hash := "h2" }

/-- A block at index 2 that does not link to `b1`. -/
def b2x : Block := { index := 2, previousHash := "zz", timestamp := 12, data := none, hash := "x2" }

def b3x : Block := { index := 3, previousHash := "x2", timestamp := 13, data := none, hash := "x3" }

def st0 : NodeState := { chain := [b0, b1], accounts := "a0", assets := "s0", escrows := "e0" }

/-- A frame with an unrecognized `type`. -/
def mBad99 : PeerMessage :=
  { type := 99, data := JsonData.bad, accounts := "", assets := "", escrow := "" }

/-- The single extension block arriving at `st0 = [b0, b1]`. -/
def mExt : PeerMessage :=
  { type := 2, data := JsonData.ok [b2], accounts := "A1", assets := "S1", escrow := "E1" }

/-- A non-contiguous single block: index 3 against a local tail at index 1,
with a `previousHash` that does not match the held tail's hash. -/
def mGap : PeerMessage :=
  { type := 2, data := JsonData.ok [b3x], accounts := "A2", assets := "S2", escrow := "E2" }

/-- An oracle that rejects every candidate new block but accepts every chain,
scoring chains by length. -/
def oracleNoNew : ChainOracle :=
  { isValidBlockStructure := fun _ => true
    isValidNewBlock := fun _ _ => false
    isValidChain := fun _ => true
    getAccumulatedDifficulty := fun c => (c.length : Int) }

/-- A block at index 3 that hash-links directly to `b1`. -/
def b3L : Block := { index := 3, previousHash := "h1", timestamp := 13, data := none, hash := "h3" }

/-- A multi-block message whose latest block links to the held tail. -/
def mForkCex : PeerMessage :=
  { type := 2, data := JsonData.ok [b2, b2x, b3L], accounts := "A3", assets := "S3",
    escrow := "E3" }

/-- An unlinkable two-block fork proposal against `st0`. -/
def mForkW : PeerMessage :=
  { type := 2, data := JsonData.ok [b2x, b3x], accounts := "A4", assets := "S4", escrow := "E4" }

def netS0 : NetState :=
  { sockets := [5], pendingTimers := [], reconnectTimeout := none, nextTimerId := 0,
    attempts := [] }

/-- One chain-reconciliation call as a state transformer: an exception aborts
the dispatch turn before any mutation, leaving the state unchanged. -/
def reconcileStep (o : ChainOracle) (st : NodeState) (m : PeerMessage) : NodeState :=
  match handleBlockchainResponse o m st with
  | Except.ok (st1, _) => st1
  | Except.error _ => st

/-- A sequence of chain-reconciliation calls. -/
def reconcileRun (o : ChainOracle) (st : NodeState) (ms : List PeerMessage) : NodeState :=
  ms.foldl (reconcileStep o) st

/-- C1: the chain-replacement rule replaces the local chain iff the received
chain passes full chain-validity checking and its accumulated difficulty
strictly exceeds the local one; on replacement it adopts the received chain and
broadcasts a RESPONSE_BLOCKCHAIN carrying the new chain's latest block; on
rejection the state is unchanged and nothing is emitted. -/
theorem replaceChain_rule (o : ChainOracle) (st : NodeState) (newBlocks : Blockchain) :
    (o.isValidChain newBlocks = true ∧
        o.getAccumulatedDifficulty newBlocks > o.getAccumulatedDifficulty st.chain →
      replaceChain o newBlocks st =
        ({ st with chain := newBlocks },
         [Effect.broadcast
           { type := RESPONSE_BLOCKCHAIN, data := JsonData.ok [getLatestBlock newBlocks],
             accounts := st.accounts, assets := st.assets, escrow := st.escrows }])) ∧
    (¬ (o.isValidChain newBlocks = true ∧
        o.getAccumulatedDifficulty newBlocks > o.getAccumulatedDifficulty st.chain) →
      replaceChain o newBlocks st = (st, [])) := by
  constructor
  · intro h
    unfold replaceChain
    rw [if_pos h]
    rfl
  · intro h
    unfold replaceChain
    rw [if_neg h]

/-- Witness for C1: a valid strictly-heavier chain is adopted and its latest
block broadcast. -/
theorem replaceChain_rule_witness :
    replaceChain oracleTrue [b0, b1, b2] st0 =
      ({ st0 with chain := [b0, b1, b2] },
       [Effect.broadcast
         { type := RESPONSE_BLOCKCHAIN, data := JsonData.ok [getLatestBlock [b0, b1, b2]],
           accounts := st0.accounts, assets := st0.assets, escrow := st0.escrows }]) :=
  (replaceChain_rule oracleTrue st0 [b0, b1, b2]).1 (by constructor <;> decide)

/-- C8: the chain-replacement rule applied to a chain identical to the local
one changes nothing and emits nothing (its accumulated difficulty does not
strictly exceed itself). -/
theorem replaceChain_self_noop (o : ChainOracle) (st : NodeState) :
    replaceChain o st.chain st = (st, []) := by
  unfold replaceChain
  rw [if_neg]
  rintro ⟨-, h⟩
  exact lt_irrefl _ h

/-- C2 (code evaluation at the failing input): the deregistration step
`splice(indexOf(ws), 1)` applied to an absent connection on the registry
`[1, 2]` removes the last registered connection instead of being a no-op:
`indexOf` yields `-1` and `splice(-1, 1)` deletes the final element. -/
theorem removeSocket_absent_removes_last :
    removeSocket [1, 2] 3 = [1] ∧ (3 : Nat) ∉ ([1, 2] : List Nat) := by
  decide

/-- C3 (counterexample): a frame on which the codec decode fails
(`JSON.parse(data)` throws) is not dropped silently — the exception escapes the
dispatch turn. -/
theorem dispatch_malformed_throws :
    initMessageHandler oracleTrue st0 Wire.bad = Except.error () ∧
      initMessageHandler oracleTrue st0 Wire.bad ≠ Except.ok (st0, []) := by
  refine ⟨rfl, fun h => ?_⟩
  exact Except.noConfusion h

/-- C3 (amended): a message whose `type` is not one of the three recognized
values is dropped silently — no reply, no state change; but a frame that fails
to decode, or a RESPONSE_BLOCKCHAIN whose `data` payload fails to decode,
raises an exception that escapes the dispatch turn. -/
theorem dispatch_error_handling (o : ChainOracle) (st : NodeState) (m : PeerMessage) :
    (m.type ≠ QUERY_LATEST → m.type ≠ QUERY_ALL → m.type ≠ RESPONSE_BLOCKCHAIN →
      initMessageHandler o st (Wire.ok m) = Except.ok (st, [])) ∧
    (initMessageHandler o st Wire.bad = Except.error ()) ∧
    (m.type = RESPONSE_BLOCKCHAIN → m.data = JsonData.bad →
      initMessageHandler o st (Wire.ok m) = Except.error ()) := by
  refine ⟨?_, rfl, ?_⟩
  · intro h1 h2 h3
    simp [initMessageHandler, h1, h2, h3]
  · intro h1 h2
    simp [initMessageHandler, h1, handleBlockchainResponse, h2, QUERY_LATEST, QUERY_ALL,
      RESPONSE_BLOCKCHAIN]

/-- Witness for C3 (amended): a `type = 99` message is dropped silently. -/
theorem dispatch_error_handling_witness :
    initMessageHandler oracleTrue st0 (Wire.ok mBad99) = Except.ok (st0, []) :=
  (dispatch_error_handling oracleTrue st0 mBad99).1 (by decide) (by decide) (by decide)

theorem findIdx?_of_mem (t : List Nat) (x : Nat) (hx : x ∈ t) :
    ∃ i, t.findIdx? (fun y => decide (y = x)) = some i := by
  induction t with
  | nil => cases hx
  | cons a t ih =>
    rw [List.findIdx?_cons]
    by_cases hax : a = x
    · exact ⟨0, by simp [hax]⟩
    · have hx' : x ∈ t := by
        rcases List.mem_cons.mp hx with h | h
        · exact absurd h.symm hax
        · exact h
      obtain ⟨i, hi⟩ := ih hx'
      refine ⟨i + 1, ?_⟩
      simp [hax, List.findIdx?_succ, hi]

theorem spliceRemoveOne_cons_succ (a : Nat) (t : List Nat) (i : Nat) :
    spliceRemoveOne (a :: t) ((i : Int) + 1) = a :: spliceRemoveOne t (i : Int) := by
  simp only [spliceRemoveOne]
  have h1 : ¬ ((i : Int) + 1 < 0) := by omega
  have h2 : ¬ ((i : Int) < 0) := by omega
  rw [if_neg h1, if_neg h2]
  have h3 : (min ((i : Int) + 1) (((a :: t).length : Nat) : Int)).toNat
      = (min (i : Int) ((t.length : Nat) : Int)).toNat + 1 := by
    simp only [List.length_cons]
    push_cast
    omega
  rw [h3, List.take_succ_cons, List.drop_succ_cons, List.cons_append]

theorem removeSocket_head (x : Nat) (t : List Nat) :
    removeSocket (x :: t) x = t := by
  unfold removeSocket indexOfJs spliceRemoveOne
  rw [List.findIdx?_cons]
  have hmin : ((0 : Int) ⊓ ((t.length : Int) + 1)).toNat = 0 := by
    rw [min_eq_left (by positivity)]
    rfl
  simp [hmin]

theorem removeSocket_cons_ne (a x : Nat) (t : List Nat) (hax : a ≠ x) (hx : x ∈ t) :
    removeSocket (a :: t) x = a :: removeSocket t x := by
  obtain ⟨i, hi⟩ := findIdx?_of_mem t x hx
  unfold removeSocket indexOfJs
  rw [List.findIdx?_cons]
  have hdec : (decide (a = x)) = false := by simp [hax]
  rw [hdec]
  simp only [Bool.false_eq_true, if_false, List.findIdx?_succ, hi, Option.map_some]
  exact_mod_cast spliceRemoveOne_cons_succ a t i

/-- The deregistration step does remove a connection that is registered exactly
once. -/
theorem removeSocket_not_mem (l : List Nat) (x : Nat) (h : l.count x = 1) :
    x ∉ removeSocket l x := by
  induction l with
  | nil => simp at h
  | cons a t ih =>
    by_cases hax : a = x
    · subst hax
      rw [removeSocket_head]
      have hz : t.count a = 0 := by
        rw [List.count_cons] at h
        simpa using h
      exact List.count_eq_zero.mp hz
    · have hcount : t.count x = 1 := by
        rw [List.count_cons] at h
        simpa [hax] using h
      have hmem : x ∈ t := by
        by_contra hmem
        rw [List.count_eq_zero.mpr hmem] at hcount
        exact absurd hcount (by omega)
      rw [removeSocket_cons_ne a x t hax hmem]
      intro hcontra
      rcases List.mem_cons.mp hcontra with hh | hh
      · exact hax hh.symm
      · exact ih hcount hh

theorem reconnectBody_attempts (peers : List String) (s : NetState) :
    (reconnectBody peers s).attempts = s.attempts ++ [peers] := by
  unfold reconnectBody clearTimeoutOp setTimeoutOp
  cases s.reconnectTimeout <;> rfl

theorem fireTimer_attempts (peers : List String) (s : NetState) (id : Nat)
    (h : s.reconnectTimeout = some id) :
    (fireTimer peers s).attempts = s.attempts ++ [peers] := by
  unfold fireTimer
  rw [h]
  exact reconnectBody_attempts _ _

theorem reconnectBody_timer (peers : List String) (s : NetState) (hwf : TimerWF s) :
    (reconnectBody peers s).pendingTimers = [s.nextTimerId] ∧
    (reconnectBody peers s).reconnectTimeout = some s.nextTimerId ∧
    (reconnectBody peers s).nextTimerId = s.nextTimerId + 1 ∧
    (reconnectBody peers s).sockets = s.sockets ∧
    TimerWF (reconnectBody peers s) := by
  obtain ⟨h1, h2⟩ := hwf
  unfold reconnectBody clearTimeoutOp setTimeoutOp
  cases hrt : s.reconnectTimeout with
  | none =>
    rw [hrt] at h1
    simp only [Option.toList] at h1
    simp [hrt, h1, TimerWF]
  | some id =>
    rw [hrt] at h1
    simp only [Option.toList] at h1
    simp [hrt, h1, TimerWF]

/-- C4: closing (or erroring) a connection registered exactly once deregisters
it, arms exactly one pending process-wide reconnect timer (a fresh handle
replacing any previously armed one), the fired timer re-dials the full
configured peer list, a second close before firing still leaves exactly one
pending timer, and timer sanity is preserved. -/
theorem closeConnection_spec (initialPeers : List String) (ws ws2 : Nat) (s : NetState)
    (hwf : TimerWF s) (hws : s.sockets.count ws = 1) :
    ws ∉ (closeConnection initialPeers ws s).sockets ∧
    (closeConnection initialPeers ws s).pendingTimers = [s.nextTimerId] ∧
    (closeConnection initialPeers ws s).reconnectTimeout = some s.nextTimerId ∧
    (closeConnection initialPeers ws s).attempts = s.attempts ++ [initialPeers] ∧
    (fireTimer initialPeers (closeConnection initialPeers ws s)).attempts
      = (closeConnection initialPeers ws s).attempts ++ [initialPeers] ∧
    (closeConnection initialPeers ws2 (closeConnection initialPeers ws s)).pendingTimers
      = [(closeConnection initialPeers ws s).nextTimerId] ∧
    TimerWF (closeConnection initialPeers ws s) := by
  have hwf1 : TimerWF { s with sockets := removeSocket s.sockets ws } := hwf
  obtain ⟨hp, hr, hn, hs, hwf2⟩ :=
    reconnectBody_timer initialPeers { s with sockets := removeSocket s.sockets ws } hwf1
  have hsock : (closeConnection initialPeers ws s).sockets = removeSocket s.sockets ws := hs
  refine ⟨?_, hp, hr, reconnectBody_attempts _ _, ?_, ?_, hwf2⟩
  · rw [hsock]
    exact removeSocket_not_mem s.sockets ws hws
  · exact fireTimer_attempts initialPeers (closeConnection initialPeers ws s) _ hr
  · have hwf3 : TimerWF { closeConnection initialPeers ws s with
        sockets := removeSocket (closeConnection initialPeers ws s).sockets ws2 } := hwf2
    exact (reconnectBody_timer initialPeers _ hwf3).1

/-- C5: an incoming RESPONSE_BLOCKCHAIN whose latest received block is ahead of
the local tail, links to it by hash, and passes new-block validation is
appended to the local chain; a RESPONSE_BLOCKCHAIN carrying just the new local
tail is broadcast; the accounts/assets/escrow snapshots of the message are
applied to the auxiliary stores. -/
theorem handle_direct_extension (o : ChainOracle) (st : NodeState) (m : PeerMessage)
    (bs : List Block) (b : Block)
    (hdata : m.data = JsonData.ok bs)
    (hne : ¬ (sortByIndex bs).length = 0)
    (hlast : (sortByIndex bs).getLastD defaultBlock = b)
    (hstruct : o.isValidBlockStructure b = true)
    (hahead : b.index > (getLatestBlock st.chain).index)
    (hlink : (getLatestBlock st.chain).hash = b.previousHash)
    (hvalid : o.isValidNewBlock b (getLatestBlock st.chain) = true) :
    handleBlockchainResponse o m st =
      Except.ok
        ({ chain := st.chain ++ [b], accounts := m.accounts, assets := m.assets,
           escrows := m.escrow },
         [Effect.broadcast
           { type := RESPONSE_BLOCKCHAIN, data := JsonData.ok [b],
             accounts := st.accounts, assets := st.assets, escrow := st.escrows }]) := by
  unfold handleBlockchainResponse
  rw [hdata]
  simp only [hlast]
  rw [if_neg hne, if_pos hstruct, if_pos hahead, if_pos hlink, if_pos hvalid]
  simp [handleReplaceAccounts, handleReplaceAssets, handleReplaceEscrow, responseLatestMsg,
    getLatestBlock, List.getLastD_concat]

/-- Witness for C5: `[b0, b1]` extended by `b2` becomes `[b0, b1, b2]` with a
broadcast of the new tail. -/
theorem handle_direct_extension_witness :
    handleBlockchainResponse oracleTrue mExt st0 =
      Except.ok
        ({ chain := st0.chain ++ [b2], accounts := mExt.accounts, assets := mExt.assets,
           escrows := mExt.escrow },
         [Effect.broadcast
           { type := RESPONSE_BLOCKCHAIN, data := JsonData.ok [b2],
             accounts := st0.accounts, assets := st0.assets, escrow := st0.escrows }]) :=
  handle_direct_extension oracleTrue st0 mExt [b2] b2 rfl (by decide) (by decide) (by decide)
    (by decide) (by decide) (by decide)

/-- C6: an incoming single block ahead of the local tail whose hash linkage
fails triggers a QUERY_ALL broadcast, leaves the chain unchanged, and still
applies the auxiliary-store snapshots from the message. -/
theorem handle_unlinkable_single (o : ChainOracle) (st : NodeState) (m : PeerMessage)
    (bs : List Block) (b : Block)
    (hdata : m.data = JsonData.ok bs)
    (hlen1 : (sortByIndex bs).length = 1)
    (hlast : (sortByIndex bs).getLastD defaultBlock = b)
    (hstruct : o.isValidBlockStructure b = true)
    (hahead : b.index > (getLatestBlock st.chain).index)
    (hlink : ¬ ((getLatestBlock st.chain).hash = b.previousHash)) :
    handleBlockchainResponse o m st =
      Except.ok
        ({ chain := st.chain, accounts := m.accounts, assets := m.assets,
           escrows := m.escrow },
         [Effect.broadcast queryAllMsg]) := by
  have hne : ¬ (sortByIndex bs).length = 0 := by omega
  unfold handleBlockchainResponse
  rw [hdata]
  simp only [hlast]
  rw [if_neg hne, if_pos hstruct, if_pos hahead, if_neg hlink, if_pos hlen1]
  simp [handleReplaceAccounts, handleReplaceAssets, handleReplaceEscrow]

/-- Witness for C6: the unlinkable single block `b3x` triggers QUERY_ALL and the
auxiliary stores take the message's snapshots. -/
theorem handle_unlinkable_single_witness :
    handleBlockchainResponse oracleTrue mGap st0 =
      Except.ok
        ({ chain := st0.chain, accounts := mGap.accounts, assets := mGap.assets,
           escrows := mGap.escrow },
         [Effect.broadcast queryAllMsg]) :=
  handle_unlinkable_single oracleTrue st0 mGap [b3x] b3x rfl (by decide) (by decide) (by decide)
    (by decide) (by decide)

/-- Shared helper: in the fork case (peer ahead, structure valid, hash linkage
fails, more than one received block) the reconciliation returns exactly the
result of `replaceChain` on the sorted received blocks. -/
theorem handle_fork_case (o : ChainOracle) (st : NodeState) (m : PeerMessage)
    (bs : List Block) (b : Block)
    (hdata : m.data = JsonData.ok bs)
    (hne : ¬ (sortByIndex bs).length = 0)
    (hlen : ¬ (sortByIndex bs).length = 1)
    (hlast : (sortByIndex bs).getLastD defaultBlock = b)
    (hstruct : o.isValidBlockStructure b = true)
    (hahead : b.index > (getLatestBlock st.chain).index)
    (hlink : ¬ ((getLatestBlock st.chain).hash = b.previousHash)) :
    handleBlockchainResponse o m st = Except.ok (replaceChain o (sortByIndex bs) st) := by
  unfold handleBlockchainResponse
  rw [hdata]
  simp only [hlast]
  rw [if_neg hne, if_pos hstruct, if_pos hahead, if_neg hlink, if_neg hlen]

/-- C7 (counterexample): with the held tail's hash equal to the latest received
block's `previousHash` but new-block validation failing, neither sub-case (a)
(validation fails) nor sub-case (b) (linkage did not fail) applies — yet the
reconciliation does nothing, while invoking the chain-replacement rule would
have replaced the chain (the received chain is valid and strictly heavier). -/
theorem handle_fork_claim_cex :
    handleBlockchainResponse oracleNoNew mForkCex st0 = Except.ok (st0, []) ∧
      (getLatestBlock st0.chain).hash = b3L.previousHash ∧
      oracleNoNew.isValidNewBlock b3L (getLatestBlock st0.chain) = false ∧
      (sortByIndex [b2, b2x, b3L]).getLastD defaultBlock = b3L ∧
      ¬ (sortByIndex [b2, b2x, b3L]).length = 1 ∧
      replaceChain oracleNoNew (sortByIndex [b2, b2x, b3L]) st0 ≠ (st0, []) :=
  ⟨rfl, by decide, by decide, by decide, by decide, by decide⟩

/-- C7 (amended): when the hash-linkage check fails and the (sorted, nonempty,
structurally valid, ahead-of-local) received blocks number more than one, the
reconciliation invokes the chain-replacement rule on them. -/
theorem handle_fork_invokes_replaceChain (o : ChainOracle) (st : NodeState) (m : PeerMessage)
    (bs : List Block) (b : Block)
    (hdata : m.data = JsonData.ok bs)
    (hne : ¬ (sortByIndex bs).length = 0)
    (hlen : ¬ (sortByIndex bs).length = 1)
    (hlast : (sortByIndex bs).getLastD defaultBlock = b)
    (hstruct : o.isValidBlockStructure b = true)
    (hahead : b.index > (getLatestBlock st.chain).index)
    (hlink : ¬ ((getLatestBlock st.chain).hash = b.previousHash)) :
    handleBlockchainResponse o m st = Except.ok (replaceChain o (sortByIndex bs) st) :=
  handle_fork_case o st m bs b hdata hne hlen hlast hstruct hahead hlink

/-- Witness for C7 (amended): the two-block unlinkable proposal goes to the
chain-replacement rule. -/
theorem handle_fork_invokes_replaceChain_witness :
    handleBlockchainResponse oracleTrue mForkW st0 =
      Except.ok (replaceChain oracleTrue (sortByIndex [b2x, b3x]) st0) :=
  handle_fork_invokes_replaceChain oracleTrue st0 mForkW [b2x, b3x] b3x rfl (by decide)
    (by decide) (by decide) (by decide) (by decide) (by decide)

/-- C10: the chain-replacement rule leaves the three auxiliary stores
unchanged (whether it replaces or rejects), and in the fork sub-case the
reconciliation result is exactly the chain-replacement result, whose auxiliary
stores are those of the pre-state — the message's snapshots are not applied. -/
theorem replaceChain_preserves_aux (o : ChainOracle) (st : NodeState)
    (newBlocks : Blockchain) (m : PeerMessage) (bs : List Block) (b : Block)
    (hdata : m.data = JsonData.ok bs)
    (hne : ¬ (sortByIndex bs).length = 0)
    (hlen : ¬ (sortByIndex bs).length = 1)
    (hlast : (sortByIndex bs).getLastD defaultBlock = b)
    (hstruct : o.isValidBlockStructure b = true)
    (hahead : b.index > (getLatestBlock st.chain).index)
    (hlink : ¬ ((getLatestBlock st.chain).hash = b.previousHash)) :
    ((replaceChain o newBlocks st).1.accounts = st.accounts ∧
     (replaceChain o newBlocks st).1.assets = st.assets ∧
     (replaceChain o newBlocks st).1.escrows = st.escrows) ∧
    handleBlockchainResponse o m st = Except.ok (replaceChain o (sortByIndex bs) st) ∧
    ((replaceChain o (sortByIndex bs) st).1.accounts = st.accounts ∧
     (replaceChain o (sortByIndex bs) st).1.assets = st.assets ∧
     (replaceChain o (sortByIndex bs) st).1.escrows = st.escrows) := by
  have frame : ∀ nb : Blockchain, (replaceChain o nb st).1.accounts = st.accounts ∧
      (replaceChain o nb st).1.assets = st.assets ∧
      (replaceChain o nb st).1.escrows = st.escrows := by
    intro nb
    unfold replaceChain
    split
    · exact ⟨rfl, rfl, rfl⟩
    · exact ⟨rfl, rfl, rfl⟩
  exact ⟨frame newBlocks,
    handle_fork_case o st m bs b hdata hne hlen hlast hstruct hahead hlink,
    frame (sortByIndex bs)⟩

/-- Witness for C10: full-chain replacement on the fork proposal leaves the
auxiliary stores at their pre-state values. -/
theorem replaceChain_preserves_aux_witness :
    (((replaceChain oracleTrue [b0, b1, b2] st0).1.accounts = st0.accounts ∧
      (replaceChain oracleTrue [b0, b1, b2] st0).1.assets = st0.assets ∧
      (replaceChain oracleTrue [b0, b1, b2] st0).1.escrows = st0.escrows) ∧
     handleBlockchainResponse oracleTrue mForkW st0 =
       Except.ok (replaceChain oracleTrue (sortByIndex [b2x, b3x]) st0) ∧
     ((replaceChain oracleTrue (sortByIndex [b2x, b3x]) st0).1.accounts = st0.accounts ∧
      (replaceChain oracleTrue (sortByIndex [b2x, b3x]) st0).1.assets = st0.assets ∧
      (replaceChain oracleTrue (sortByIndex [b2x, b3x]) st0).1.escrows = st0.escrows)) :=
  replaceChain_preserves_aux oracleTrue st0 [b0, b1, b2] mForkW [b2x, b3x] b3x rfl (by decide)
    (by decide) (by decide) (by decide) (by decide) (by decide)

/-- Witness for C4: one registered connection closes from a quiescent state. -/
theorem closeConnection_spec_witness :
    (5 : Nat) ∉ (closeConnection ["ws://a"] 5 netS0).sockets ∧
    (closeConnection ["ws://a"] 5 netS0).pendingTimers = [netS0.nextTimerId] ∧
    (closeConnection ["ws://a"] 5 netS0).reconnectTimeout = some netS0.nextTimerId ∧
    (closeConnection ["ws://a"] 5 netS0).attempts = netS0.attempts ++ [["ws://a"]] ∧
    (fireTimer ["ws://a"] (closeConnection ["ws://a"] 5 netS0)).attempts
      = (closeConnection ["ws://a"] 5 netS0).attempts ++ [["ws://a"]] ∧
    (closeConnection ["ws://a"] 7 (closeConnection ["ws://a"] 5 netS0)).pendingTimers
      = [(closeConnection ["ws://a"] 5 netS0).nextTimerId] ∧
    TimerWF (closeConnection ["ws://a"] 5 netS0) :=
  closeConnection_spec ["ws://a"] 5 7 netS0 (by constructor <;> simp [netS0]) (by decide)

theorem handleBlockchainResponse_difficulty (o : ChainOracle)
    (hmono : ∀ (c : Blockchain) (b : Block), o.isValidNewBlock b (getLatestBlock c) = true →
      o.getAccumulatedDifficulty c ≤ o.getAccumulatedDifficulty (c ++ [b]))
    (st : NodeState) (m : PeerMessage) (st1 : NodeState) (effs : List Effect)
    (h : handleBlockchainResponse o m st = Except.ok (st1, effs)) :
    o.getAccumulatedDifficulty st.chain ≤ o.getAccumulatedDifficulty st1.chain := by
  unfold handleBlockchainResponse at h
  split at h
  · exact absurd h (by simp)
  · simp only [] at h
    split_ifs at h with hlen0 hstruct hahead hlink hvalid hlen1
    · simp only [Except.ok.injEq, Prod.mk.injEq] at h
      rw [← h.1]
    · simp only [Except.ok.injEq, Prod.mk.injEq] at h
      rw [← h.1]
      exact hmono st.chain _ hvalid
    · simp only [Except.ok.injEq, Prod.mk.injEq] at h
      rw [← h.1]
    · simp only [Except.ok.injEq, Prod.mk.injEq] at h
      rw [← h.1]
      exact le_of_eq rfl
    · simp only [Except.ok.injEq] at h
      unfold replaceChain at h
      split_ifs at h with hrep
      · simp only [Prod.mk.injEq] at h
        rw [← h.1]
        exact le_of_lt hrep.2
      · simp only [Prod.mk.injEq] at h
        rw [← h.1]
    · simp only [Except.ok.injEq, Prod.mk.injEq] at h
      rw [← h.1]
    · simp only [Except.ok.injEq, Prod.mk.injEq] at h
      rw [← h.1]

/-- C9: over any sequence of chain-reconciliation calls the accumulated
difficulty of the local chain never decreases, provided accumulated difficulty
is monotone under validated single-block extension. -/
theorem reconcileRun_difficulty_mono (o : ChainOracle)
    (hmono : ∀ (c : Blockchain) (b : Block), o.isValidNewBlock b (getLatestBlock c) = true →
      o.getAccumulatedDifficulty c ≤ o.getAccumulatedDifficulty (c ++ [b]))
    (ms : List PeerMessage) (st : NodeState) :
    o.getAccumulatedDifficulty st.chain ≤
      o.getAccumulatedDifficulty (reconcileRun o st ms).chain := by
  induction ms generalizing st with
  | nil => exact le_refl _
  | cons m ms ih =>
    refine le_trans ?_ (ih (reconcileStep o st m))
    unfold reconcileStep
    cases hres : handleBlockchainResponse o m st with
    | error e =>
      exact le_refl _
    | ok p =>
      obtain ⟨st1, effs⟩ := p
      exact handleBlockchainResponse_difficulty o hmono st m st1 effs hres

/-- Witness for C9: a run of three reconciliation calls from `st0` under the
length-scoring oracle. -/
theorem reconcileRun_difficulty_mono_witness :
    oracleTrue.getAccumulatedDifficulty st0.chain ≤
      oracleTrue.getAccumulatedDifficulty
        (reconcileRun oracleTrue st0 [mExt, mGap, mForkW]).chain :=
  reconcileRun_difficulty_mono oracleTrue
    (fun c b _ => by simp [oracleTrue]) [mExt, mGap, mForkW] st0
